import Mathlib

/-!
Verification of the GovData query-understanding and scoring pipeline.

The development shallowly embeds the pipeline of the repository:
  * `src/lib/nlp.ts` — query interpreter (`processQuery` and its steps),
  * `src/app/api/search/route.ts` — relevance scorer (`calculateRelevanceScore`)
    and the NLP step of the search route (`searchNlpStep`),
  * `src/lib/recommendations.ts` — recommendation engine (`calculateSimilarity`,
    `getRelatedRecommendations`, `getSearchRecommendations`, `getTrendingDatasets`,
    `getComplementaryDatasets`).

Modelling conventions:
  * JavaScript strings are Lean `String`s; all string operations are defined over
    `String.data : List Char` so that they reduce in the kernel.  The source only
    ever handles ASCII data; `Char.toLower` agrees with `String.toLowerCase` there.
  * JavaScript numbers are modelled as `ℚ`.  Every constant in the source is a
    short decimal (0.1, 0.3, 0.8, …), written below with the same decimal literal.
  * Stored JSON-array fields (`keywords`, `domains`) are modelled in already
    parsed form (`List String`); tag records are modelled by their `name` field.
  * `Array.prototype.sort` (stable since ES2019) with comparator
    `(a, b) => b.score - a.score` is modelled by the stable `List.mergeSort`
    with the relation `b.score ≤ a.score`.
  * Database fetches are modelled by an explicit `Store` of response functions;
    the engine is parametric in the store, exactly as the code is in `prisma`.
-/

namespace GovData

/-- `\w` of a JavaScript regex: ASCII letters, digits and underscore. -/
def isWordChar (c : Char) : Bool := c.isAlphanum || c == '_'

/-- `\s` of a JavaScript regex, restricted to the characters that occur in the data
(ASCII whitespace and no-break space). -/
def jsIsSpace (c : Char) : Bool :=
  c == ' ' || c == '\t' || c == '\n' || c == '\r' ||
  c == Char.ofNat 0x0b || c == Char.ofNat 0x0c || c == Char.ofNat 0xa0

/-- Whether `pat` is a prefix of the character list `s`. -/
def charsStartWith : List Char → List Char → Bool
  | _, [] => true
  | [], _ :: _ => false
  | c :: cs, p :: ps => c == p && charsStartWith cs ps

/-- Whether `pat` occurs as a contiguous substring of `hay`
(JavaScript `String.prototype.includes`). -/
def charsContain (hay pat : List Char) : Bool :=
  charsStartWith hay pat ||
    match hay with
    | [] => false
    | _ :: hs => charsContain hs pat

/-- JavaScript `s.includes(pat)`. -/
def jsIncludes (s pat : String) : Bool := charsContain s.data pat.data

/-- JavaScript `s.toLowerCase()` (ASCII). -/
def jsToLower (s : String) : String := String.mk (s.data.map Char.toLower)

/-- JavaScript `s.trim()`. -/
def jsTrim (s : String) : String :=
  String.mk (((s.data.dropWhile jsIsSpace).reverse.dropWhile jsIsSpace).reverse)

/-- Accumulator form of `jsDedup`: `seen` holds the values already emitted. -/
def jsDedupAux (seen : List String) : List String → List String
  | [] => []
  | x :: xs =>
    if seen.contains x then jsDedupAux seen xs
    else x :: jsDedupAux (x :: seen) xs

/-- JavaScript `[...new Set(l)]`: deduplicate keeping the first occurrence of
each value, in encounter order. -/
def jsDedup (l : List String) : List String := jsDedupAux [] l

/-- JavaScript `s.split(sep)` for a single separator character: consecutive
separators and boundary separators produce empty-string fields. -/
def splitCharAux (sep : Char) : List Char → List (List Char)
  | [] => [[]]
  | c :: cs =>
    if c == sep then [] :: splitCharAux sep cs
    else
      match splitCharAux sep cs with
      | [] => [[c]]
      | t :: ts => (c :: t) :: ts

/-- JavaScript `s.split(' ')`. -/
def jsSplitSpace (s : String) : List String :=
  (splitCharAux ' ' s.data).map (fun cs => String.mk cs)

mutual

/-- JavaScript `s.split(/\s+/)`, collecting the current field in `cur`
(in reverse).  A maximal run of whitespace is one separator. -/
def splitWsAux (cur : List Char) : List Char → List String
  | [] => [String.mk cur.reverse]
  | c :: cs =>
    if jsIsSpace c then String.mk cur.reverse :: splitWsRun cs
    else splitWsAux (c :: cur) cs

/-- State of `splitWsAux` inside a whitespace run: skip the rest of the run. -/
def splitWsRun : List Char → List String
  | [] => [""]
  | c :: cs => if jsIsSpace c then splitWsRun cs else splitWsAux [c] cs

end

/-- Maximal runs of `\w` characters of a character list, i.e. the full-token
matches of a JavaScript regex `\b(w1|w2|…)\b` candidate scan (`cur` holds the
current run in reverse). -/
def wordTokensAux (cur : List Char) : List Char → List (List Char)
  | [] => if cur.isEmpty then [] else [cur.reverse]
  | c :: cs =>
    if isWordChar c then wordTokensAux (c :: cur) cs
    else if cur.isEmpty then wordTokensAux [] cs
    else cur.reverse :: wordTokensAux [] cs

/-- Maximal `\w`-runs of a string, as strings. -/
def wordTokens (s : String) : List String :=
  (wordTokensAux [] s.data).map (fun t => String.mk t)

/-- Right word boundary: the position after a match is the end of the text or a
non-word character. -/
def boundaryOk : List Char → Bool
  | [] => true
  | c :: _ => !isWordChar c

/-- Scan for an occurrence of `pat` (a word-character literal, possibly with
inner spaces) that is preceded by a word boundary and followed by one.
`prevW` records whether the previous character was a word character. -/
def wbOccursAux (pat : List Char) : Bool → List Char → Bool
  | _, [] => false
  | prevW, c :: cs =>
    (!prevW && charsStartWith (c :: cs) pat && boundaryOk ((c :: cs).drop pat.length)) ||
      wbOccursAux pat (isWordChar c) cs

/-- JavaScript `/\b(a1|a2|…)\b/.test(query)` for literal alternatives. -/
def wbTest (query : String) (alts : List String) : Bool :=
  alts.any (fun a => wbOccursAux a.data false query.data)

/-- Characters matched by `.` in a JavaScript regex (no `s` flag): everything
except line terminators. -/
def isDotChar (c : Char) : Bool :=
  !(c == '\n' || c == '\r' || c == Char.ofNat 0x2028 || c == Char.ofNat 0x2029)

/-- After `from` has been consumed: scan for `to` followed by a word boundary,
crossing only `.`-matchable characters (the `.*` of `from.*to`). -/
def toSearchAux : List Char → Bool
  | [] => false
  | c :: cs =>
    (charsStartWith (c :: cs) ['t', 'o'] && boundaryOk ((c :: cs).drop 2)) ||
      (isDotChar c && toSearchAux cs)

/-- JavaScript `/\bfrom.*to\b/.test(query)`. -/
def fromToAux : Bool → List Char → Bool
  | _, [] => false
  | prevW, c :: cs =>
    (!prevW && charsStartWith (c :: cs) ['f', 'r', 'o', 'm'] && toSearchAux ((c :: cs).drop 4)) ||
      fromToAux (isWordChar c) cs

/-! ### Query interpreter (`src/lib/nlp.ts`) -/

/-- Intent classification of `ProcessedQuery` (`'search' | 'question' | 'comparison' | 'trend'`). -/
inductive Intent where
  | search
  | question
  | comparison
  | trend
deriving DecidableEq, Repr

/-- The `ProcessedQuery` interface of `src/lib/nlp.ts`. -/
structure ProcessedQuery where
  originalQuery : String
  keywords : List String
  domains : List String
  intent : Intent
  entities : List String
  confidence : ℚ
deriving DecidableEq

/-- The `DOMAIN_KEYWORDS` table of `src/lib/nlp.ts`, in declaration order. -/
def DOMAIN_KEYWORDS : List (String × List String) :=
  [("labour",
    ["employment", "unemployment", "workforce", "job", "labor", "labour", "occupation",
     "wage", "salary", "income", "participation", "work", "career", "skill", "training"]),
   ("health",
    ["health", "medical", "hospital", "disease", "wellbeing", "mental", "aged care",
     "elderly", "nursing", "doctor", "patient", "treatment", "medicine"]),
   ("housing",
    ["housing", "home", "property", "rent", "mortgage", "affordable", "homeless",
     "accommodation", "dwelling", "real estate", "rental", "household"]),
   ("education",
    ["education", "school", "university", "training", "learning", "student",
     "teacher", "qualification", "degree", "course", "skill development"]),
   ("ageing",
    ["ageing", "elderly", "senior", "retirement", "pension", "aged", "population ageing",
     "longevity", "geriatric", "older people"]),
   ("inequality",
    ["inequality", "poverty", "wealth", "disparity", "gap", "distribution", "equity",
     "socioeconomic", "disadvantage", "income distribution"]),
   ("population",
    ["population", "demographic", "census", "birth", "death", "migration", "fertility",
     "mortality", "age structure", "regional"])]

/-- The stop-word list of `extractKeywords`. -/
def STOP_WORDS : List String :=
  ["the", "a", "an", "and", "or", "but", "in", "on", "at", "to", "for", "of", "with",
   "by", "is", "are", "was", "were", "be", "been", "being", "have", "has", "had", "do",
   "does", "did", "will", "would", "could", "should", "may", "might", "must", "can", "shall"]

/-- The token list of `extractKeywords` before filtering:
`query.replace(/[^\w\s]/g, ' ').split(/\s+/)`. -/
def queryTokens (query : String) : List String :=
  splitWsAux [] (query.data.map (fun c => if isWordChar c || jsIsSpace c then c else ' '))

/-- `extractKeywords` of `src/lib/nlp.ts`: strip punctuation, split on whitespace,
keep words longer than 2 characters that are not stop words, deduplicate. -/
def extractKeywords (query : String) : List String :=
  let words := queryTokens query |>.filter
    (fun word => word.length > 2 && !STOP_WORDS.contains word)
  jsDedup words

/-- The per-domain score of `detectDomains`: one point per extracted keyword that is
contained in or contains one of the domain's terms, plus two if the domain name
itself occurs in the query. -/
def domainScore (query : String) (keywords : List String) (entry : String × List String) : Nat :=
  keywords.countP (fun keyword =>
    entry.2.any (fun dk => jsIncludes dk keyword || jsIncludes keyword dk)) +
  (if jsIncludes query entry.1 then 2 else 0)

/-- The `domainScores` record of `detectDomains`: the positively scored domains, in
the encounter order of `DOMAIN_KEYWORDS` (JavaScript object-key insertion order). -/
def scoredDomains (query : String) (keywords : List String) : List (String × Nat) :=
  DOMAIN_KEYWORDS.filterMap (fun entry =>
    let score := domainScore query keywords entry
    if score > 0 then some (entry.1, score) else none)

/-- Descending comparison on scored domains; `Object.entries(domainScores).sort(([,a],[,b]) => b - a)`
is a stable descending sort by score. -/
def domainGe (a b : String × Nat) : Bool := b.2 ≤ a.2

/-- `detectDomains` of `src/lib/nlp.ts`. -/
def detectDomains (query : String) (keywords : List String) : List String :=
  ((scoredDomains query keywords).mergeSort domainGe).map Prod.fst

/-- `detectIntent` of `src/lib/nlp.ts`: the `QUESTION_PATTERNS` list is tried in
order; the first matching pattern wins; the default is `search`.  The query is
already lowercased, so the `i` flags are vacuous. -/
def detectIntent (query : String) : Intent :=
  if wbTest query ["what", "which", "where", "how many", "how much"] then .search
  else if wbTest query ["show me", "tell me", "give me"] then .search
  else if wbTest query ["compare", "versus", "vs", "difference"] then .comparison
  else if wbTest query ["trend", "change", "over time", "since"] ||
      fromToAux false query.data then .trend
  else .search

/-- The state-abbreviation alternatives of `ENTITY_PATTERNS`. -/
def STATE_WORDS : List String := ["act", "nsw", "qld", "sa", "tas", "vic", "wa", "nt"]

/-- The month alternatives of `ENTITY_PATTERNS`. -/
def MONTH_WORDS : List String :=
  ["january", "february", "march", "april", "may", "june", "july", "august",
   "september", "october", "november", "december"]

/-- A full token matching `201\d|202\d`. -/
def isYearToken (t : List Char) : Bool :=
  match t with
  | ['2', '0', c3, c4] => (c3 == '1' || c3 == '2') && c4.isDigit
  | _ => false

/-- `extractEntities` of `src/lib/nlp.ts`: all (global) matches of the three entity
patterns, in pattern order, deduplicated.  Each alternative consists solely of
word characters, so a `\b…\b` match is exactly a full `\w`-token equal to it. -/
def extractEntities (query : String) : List String :=
  let tokens := wordTokens query
  let stateMatches := tokens.filter (fun t => STATE_WORDS.contains t)
  let yearMatches := tokens.filter (fun t => isYearToken t.data)
  let monthMatches := tokens.filter (fun t => MONTH_WORDS.contains t)
  jsDedup (stateMatches ++ yearMatches ++ monthMatches)

/-- `calculateConfidence` of `src/lib/nlp.ts`. -/
def calculateConfidence (keywords domains entities : List String) : ℚ :=
  let confidence : ℚ := 0.5
  let confidence := confidence + min ((keywords.length : ℚ) * 0.1) 0.3
  let confidence := confidence + (domains.length : ℚ) * 0.1
  let confidence := confidence + (entities.length : ℚ) * 0.1
  min confidence 0.9

/-- `query.toLowerCase().trim()`, the normalization step of `processQuery`. -/
def normalizeQuery (query : String) : String := jsTrim (jsToLower query)

/-- `processQuery` of `src/lib/nlp.ts`. -/
def processQuery (query : String) : ProcessedQuery :=
  let normalizedQuery := normalizeQuery query
  let keywords := extractKeywords normalizedQuery
  let domains := detectDomains normalizedQuery keywords
  let intent := detectIntent normalizedQuery
  let entities := extractEntities normalizedQuery
  let confidence := calculateConfidence keywords domains entities
  { originalQuery := query
    keywords := keywords
    domains := domains
    intent := intent
    entities := entities
    confidence := confidence }

/-! ### Search route (`src/app/api/search/route.ts`) -/

/-- A dataset row as consumed by `calculateRelevanceScore` (`DatasetWithAgency`):
`keywords` is the parsed JSON array, `tags` the tag names, `relatedFrom` and
`relatedTo` the ids of the relation rows (only their lengths are used). -/
structure SearchDataset where
  id : String
  name : String
  description : String
  keywords : List String
  tags : List String
  relatedFrom : List String
  relatedTo : List String
deriving DecidableEq

/-- `calculateRelevanceScore` of `src/app/api/search/route.ts`.  The imperative
`score` accumulation is mirrored with folds; all weights are integers. -/
def calculateRelevanceScore (dataset : SearchDataset) (query : String)
    (searchTerms : List String) : Nat :=
  let score := 0
  let score := if jsIncludes (jsToLower dataset.name) (jsToLower query) then score + 100 else score
  let score :=
    if jsIncludes (jsToLower dataset.description) (jsToLower query) then score + 50 else score
  let score := searchTerms.foldl (fun s term =>
    if dataset.keywords.any (fun keyword => jsIncludes (jsToLower keyword) term)
    then s + 25 else s) score
  let score := dataset.tags.foldl (fun s tag =>
    if jsIncludes (jsToLower tag) (jsToLower query) then s + 20 else s) score
  score + (dataset.relatedFrom.length + dataset.relatedTo.length) * 10

/-- Relevance score as worded by the specification (claim C1): the keyword clause
uses mutual, case-insensitive substring containment.  This definition follows the
claim's words and exists only to be compared with `calculateRelevanceScore`. -/
def specRelevanceScore (dataset : SearchDataset) (query : String)
    (searchTerms : List String) : Nat :=
  (if jsIncludes (jsToLower dataset.name) (jsToLower query) then 100 else 0) +
  (if jsIncludes (jsToLower dataset.description) (jsToLower query) then 50 else 0) +
  25 * searchTerms.countP (fun term => dataset.keywords.any (fun keyword =>
    jsIncludes (jsToLower keyword) (jsToLower term) ||
    jsIncludes (jsToLower term) (jsToLower keyword))) +
  20 * dataset.tags.countP (fun tag => jsIncludes (jsToLower tag) (jsToLower query)) +
  10 * (dataset.relatedFrom.length + dataset.relatedTo.length)

/-- The NLP step of the search route's `GET` handler (lines 44–56 of
`src/app/api/search/route.ts`).  `nlpOk` records whether the `processQuery` call
succeeded; the `catch` branch builds the fallback literal of line 53, whose
keywords are `query.split(' ')`.  The handler always obtains a `ProcessedQuery`. -/
def searchNlpStep (query : String) (nlpOk : Bool) : ProcessedQuery :=
  if nlpOk then processQuery query
  else
    { originalQuery := query
      keywords := jsSplitSpace query
      domains := []
      intent := .search
      entities := []
      confidence := 0.5 }

/-! ### Recommendation engine (`src/lib/recommendations.ts`) -/

/-- The `DatasetType` interface, with `keywords`/`domains` in parsed form and
tags by name. -/
structure Dataset where
  id : String
  name : String
  description : String
  keywords : List String
  domains : List String
  tags : List String
  agencyId : String
  agencyName : String
  accessibility : String
deriving DecidableEq

/-- One `DatasetRelation` row as seen from a seed dataset: `dataset` is the
opposite endpoint (`r.to` for an outgoing row, `r.from` for an incoming one);
`description` is nullable in the schema. -/
structure Relation where
  dataset : Dataset
  relationType : String
  description : Option String
deriving DecidableEq

/-- A seed dataset fetched with its relation rows included. -/
structure CurrentDataset where
  base : Dataset
  relatedFrom : List Relation
  relatedTo : List Relation
deriving DecidableEq

/-- The strategy tag of `DatasetRecommendation`. -/
inductive RecType where
  | related
  | domain
  | keyword
  | agency
  | trending
deriving DecidableEq, Repr

/-- The `DatasetRecommendation` interface. -/
structure Recommendation where
  dataset : Dataset
  score : ℚ
  reason : String
  type : RecType
deriving DecidableEq

/-- A dataset row of the trending fetch, which carries `_count` of its relations. -/
structure CountedDataset where
  dataset : Dataset
  relatedFromCount : Nat
  relatedToCount : Nat
deriving DecidableEq

/-- The `RecommendationContext` interface (only the fields the engine reads). -/
structure RecommendationContext where
  searchQuery : Option String := none
  domains : Option (List String) := none
  keywords : Option (List String) := none

/-- The dataset store, abstracted to its read operations: each field models one
`prisma.dataset.findMany`/`findUnique` call shape of `src/lib/recommendations.ts`
(arguments: the values of the `where` clause, and the `take` limit). -/
structure Store where
  findUnique : String → Option CurrentDataset
  findByDomain : String → String → Nat → List Dataset
  findByAgency : String → String → Nat → List Dataset
  findByDomainCtx : String → Nat → List Dataset
  findByKeywords : List String → Nat → List Dataset
  findApiAccessible : Nat → List Dataset
  findRecentlyUpdated : Nat → List CountedDataset

/-- `calculateSimilarity` of `src/lib/recommendations.ts`. -/
def calculateSimilarity (dataset1 dataset2 : Dataset) : ℚ :=
  let similarity : ℚ := 0
  let domainOverlap := (dataset1.domains.filter (fun d => dataset2.domains.contains d)).length
  let similarity := similarity + (domainOverlap : ℚ) * 0.3
  let keywordOverlap := (dataset1.keywords.filter (fun k =>
    dataset2.keywords.any (fun k2 => jsIncludes k2 k || jsIncludes k k2))).length
  let similarity := similarity + (keywordOverlap : ℚ) * 0.2
  let tagOverlap := (dataset1.tags.filter (fun t => dataset2.tags.contains t)).length
  let similarity := similarity + (tagOverlap : ℚ) * 0.25
  let similarity := if dataset1.agencyId == dataset2.agencyId then similarity + 0.1 else similarity
  let similarity :=
    if dataset1.accessibility == "api" && dataset2.accessibility == "api"
    then similarity + 0.15 else similarity
  similarity

/-- JavaScript `description || 'Direct relationship'`: `null` and the empty
string are falsy. -/
def jsOrDefault (description : Option String) (dflt : String) : String :=
  match description with
  | none => dflt
  | some s => if s == "" then dflt else s

/-- The direct-relation strategy (step 1 of `getRelatedRecommendations`,
lines 108–129): one recommendation per relation row touching the seed, in either
direction, with score `1.0`. -/
def directRelationRecs (currentDataset : CurrentDataset) : List Recommendation :=
  let directRelations :=
    currentDataset.relatedFrom.map (fun r => (r.dataset, r.relationType, r.description)) ++
    currentDataset.relatedTo.map (fun r => (r.dataset, r.relationType, r.description))
  directRelations.map (fun x =>
    { dataset := x.1
      score := 1.0
      reason := x.2.1 ++ ": " ++ jsOrDefault x.2.2 "Direct relationship"
      type := .related })

/-- Accumulator form of `dedupById`: `seen` holds the dataset ids already kept. -/
def dedupByIdAux (seen : List String) : List Recommendation → List Recommendation
  | [] => []
  | r :: rs =>
    if seen.contains r.dataset.id then dedupByIdAux seen rs
    else r :: dedupByIdAux (r.dataset.id :: seen) rs

/-- The `filter((rec, index, self) => index === self.findIndex(r => r.dataset.id === rec.dataset.id))`
step: keep each recommendation whose index is the first index with its dataset id. -/
def dedupById (recs : List Recommendation) : List Recommendation := dedupByIdAux [] recs

/-- Descending comparison used by `.sort((a, b) => b.score - a.score)`. -/
def recGe (a b : Recommendation) : Bool := b.score ≤ a.score

/-- The shared merge step of the engine (`getRelatedRecommendations` lines 196–204,
`getSearchRecommendations` lines 308–316): deduplicate by dataset id keeping the
first occurrence, stably sort descending by score, truncate to `limit`. -/
def dedupeAndRank (recs : List Recommendation) (limit : Nat) : List Recommendation :=
  (((dedupById recs).mergeSort recGe).take limit)

/-- `getRelatedRecommendations` of `src/lib/recommendations.ts`, parametric in the
store responses. -/
def getRelatedRecommendations (store : Store) (datasetId : String)
    (limit : Nat := 5) : List Recommendation :=
  match store.findUnique datasetId with
  | none => []
  | some currentDataset =>
    let directRecs := directRelationRecs currentDataset
    let domainRecs :=
      match currentDataset.base.domains with
      | [] => []
      | d0 :: _ =>
        (store.findByDomain d0 datasetId 10).filterMap (fun dataset =>
          let similarity := calculateSimilarity currentDataset.base dataset
          if similarity > 0.3 then
            some { dataset := dataset
                   score := similarity * 0.8
                   reason := "Same domain: " ++ d0
                   type := RecType.domain }
          else none)
    let agencyRecs :=
      (store.findByAgency currentDataset.base.agencyId datasetId 5).map (fun dataset =>
        let similarity := calculateSimilarity currentDataset.base dataset
        { dataset := dataset
          score := similarity * 0.6
          reason := "From same agency: " ++ currentDataset.base.agencyName
          type := RecType.agency })
    dedupeAndRank (directRecs ++ domainRecs ++ agencyRecs) limit

/-- `getSearchRecommendations` of `src/lib/recommendations.ts`. -/
def getSearchRecommendations (store : Store) (context : RecommendationContext)
    (limit : Nat := 5) : List Recommendation :=
  let domainRecs :=
    match context.domains with
    | some (d0 :: _) =>
      (store.findByDomainCtx d0 10).map (fun dataset =>
        { dataset := dataset
          score := (0.7 : ℚ)
          reason := "Popular in " ++ d0 ++ " domain"
          type := RecType.domain })
    | _ => []
  let keywordRecs :=
    match context.keywords with
    | some (k0 :: ks) =>
      (store.findByKeywords (k0 :: ks) 8).map (fun dataset =>
        let keywordMatches := ((k0 :: ks).filter (fun keyword =>
          dataset.keywords.any (fun k => jsIncludes k keyword))).length
        { dataset := dataset
          score := 0.5 + (keywordMatches : ℚ) * 0.1
          reason := "Matches " ++ toString keywordMatches ++ " search terms"
          type := RecType.keyword })
    | _ => []
  let apiRecs :=
    (store.findApiAccessible 3).map (fun dataset =>
      { dataset := dataset
        score := (0.6 : ℚ)
        reason := "Live data available via API"
        type := RecType.keyword })
  dedupeAndRank (domainRecs ++ keywordRecs ++ apiRecs) limit

/-- `getTrendingDatasets` of `src/lib/recommendations.ts`: the store returns the
most recently updated rows; no deduplication, sorting or further truncation. -/
def getTrendingDatasets (store : Store) (limit : Nat := 5) : List Recommendation :=
  (store.findRecentlyUpdated limit).map (fun t =>
    { dataset := t.dataset
      score := ((t.relatedFromCount + t.relatedToCount : Nat) : ℚ) * 10
      reason := "Trending dataset based on relationships"
      type := .trending })

/-- `getComplementaryDatasets` of `src/lib/recommendations.ts`: the full related
pipeline with limit 2 for each seed id, then one filter combining the
first-occurrence dedup with the exclusion of the seed ids, sort, `slice(0, 5)`. -/
def getComplementaryDatasets (store : Store) (datasetIds : List String) :
    List Recommendation :=
  let recommendations := datasetIds.flatMap (fun datasetId =>
    getRelatedRecommendations store datasetId 2)
  ((((dedupById recommendations).filter
      (fun rec => !datasetIds.contains rec.dataset.id)).mergeSort recGe).take 5)

/-! ### Auxiliary spec-level functions and concrete fixtures

The fixtures below are concrete inputs used by counterexamples and witnesses. -/

/-- The score `detectDomains` assigns to a domain name (0 for a name outside the
table); the table has pairwise distinct names, so `find?` retrieves the entry. -/
def domainScoreOf (query : String) (keywords : List String) (d : String) : Nat :=
  match DOMAIN_KEYWORDS.find? (fun e => e.1 == d) with
  | some e => domainScore query keywords e
  | none => 0

/-- Position of a domain name in the `DOMAIN_KEYWORDS` table (its encounter order). -/
def domainRank (d : String) : Nat := List.indexOf d (DOMAIN_KEYWORDS.map Prod.fst)

/-- C1 counterexample dataset: its only keyword `"job"` is strictly contained in
the search term `"jobs"`. -/
def relevanceCexDataset : SearchDataset :=
  { id := "cex1", name := "n", description := "d", keywords := ["job"],
    tags := [], relatedFrom := [], relatedTo := [] }

/-- C7 witness dataset: no keywords yet. -/
def monotonicityDataset : SearchDataset :=
  { id := "mono1", name := "n", description := "d", keywords := [],
    tags := [], relatedFrom := [], relatedTo := [] }

/-- C7 counterexample dataset: `"employment"` already matches the search term
`"employment"`, so adding another matching keyword changes nothing. -/
def monotonicityCexDataset : SearchDataset :=
  { id := "mono2", name := "n", description := "d", keywords := ["employment"],
    tags := [], relatedFrom := [], relatedTo := [] }

/-- A store that holds no datasets at all. -/
def emptyStore : Store :=
  { findUnique := fun _ => none
    findByDomain := fun _ _ _ => []
    findByAgency := fun _ _ _ => []
    findByDomainCtx := fun _ _ => []
    findByKeywords := fun _ _ => []
    findApiAccessible := fun _ => []
    findRecentlyUpdated := fun _ => [] }

/-- C9 fixture: seed dataset `A` with no relations and no domains. -/
def dsA : Dataset :=
  { id := "A", name := "Dataset A", description := "a", keywords := [], domains := [],
    tags := [], agencyId := "G", agencyName := "Gov Agency", accessibility := "public" }

/-- C9 fixture: dataset `B` from the same agency as `A`, unrelated to it. -/
def dsB : Dataset :=
  { id := "B", name := "Dataset B", description := "b", keywords := [], domains := [],
    tags := [], agencyId := "G", agencyName := "Gov Agency", accessibility := "public" }

/-- C9 fixture store: `A` exists with no relation rows; the agency fetch for `A`
returns `B`. -/
def cStore : Store :=
  { findUnique := fun i => if i == "A" then some { base := dsA, relatedFrom := [], relatedTo := [] } else none
    findByDomain := fun _ _ _ => []
    findByAgency := fun agencyId excludeId _ =>
      if agencyId == "G" && excludeId == "A" then [dsB] else []
    findByDomainCtx := fun _ _ => []
    findByKeywords := fun _ _ => []
    findApiAccessible := fun _ => []
    findRecentlyUpdated := fun _ => [] }

/-- The recommendation the agency strategy produces for `B` from seed `A`. -/
def cRecB : Recommendation :=
  { dataset := dsB
    score := calculateSimilarity dsA dsB * 0.6
    reason := "From same agency: " ++ dsA.agencyName
    type := .agency }

/-- C8 witness fixture: one outgoing `feeds-into` relation with a description. -/
def relW : Relation :=
  { dataset := dsB, relationType := "feeds-into",
    description := some "labour data feeds planning" }

/-- C8 witness fixture: a seed with exactly `relW` outgoing and nothing incoming. -/
def curW : CurrentDataset := { base := dsA, relatedFrom := [relW], relatedTo := [] }

/-- C8 counterexample fixture: an outgoing relation whose description is the
empty string (present but falsy in JavaScript). -/
def curE : CurrentDataset :=
  { base := dsA
    relatedFrom := [{ dataset := dsB, relationType := "feeds-into", description := some "" }]
    relatedTo := [] }

/-- C3 witness fixture: two recommendations with distinct ids, already in
descending score order (integer-valued scores). -/
def recW1 : Recommendation := { dataset := dsA, score := 1, reason := "w1", type := .related }

/-- C3 witness fixture: second recommendation, lower score. -/
def recW2 : Recommendation := { dataset := dsB, score := 0, reason := "w2", type := .agency }

/-- C6 witness fixture: first dataset. -/
def simA : Dataset :=
  { id := "s1", name := "n1", description := "x", keywords := ["employment", "wage"],
    domains := ["labour", "health"], tags := ["t1"], agencyId := "AG",
    agencyName := "Agency", accessibility := "api" }

/-- C6 witness fixture: second dataset. -/
def simB : Dataset :=
  { id := "s2", name := "n2", description := "y", keywords := ["wages", "census"],
    domains := ["labour"], tags := ["t1", "t2"], agencyId := "AG",
    agencyName := "Agency", accessibility := "api" }

/-! ### General helper lemmas -/

/-- Accumulating `c` for every element satisfying `p` is `c` times the count. -/
theorem foldl_if_add {α : Type} (p : α → Bool) (c : Nat) :
    ∀ (l : List α) (a : Nat),
      l.foldl (fun s x => if p x then s + c else s) a = a + c * l.countP p
  | [], a => by simp
  | x :: xs, a => by
    rw [List.foldl_cons, foldl_if_add p c xs, List.countP_cons]
    by_cases h : p x = true <;> (simp [h]; try ring)

/-- Counting a disjunction splits into the count of `p` and the count of the
new matches. -/
theorem countP_or_split {α : Type} (p q : α → Bool) :
    ∀ l : List α,
      l.countP (fun x => p x || q x) = l.countP p + l.countP (fun x => q x && !p x)
  | [] => by simp
  | x :: xs => by
    rw [List.countP_cons, List.countP_cons, List.countP_cons, countP_or_split p q xs]
    by_cases hp : p x = true <;> by_cases hq : q x = true <;> simp [hp, hq] <;> ring

/-- `List.contains` agrees with membership for lawful `BEq`. -/
theorem contains_iff_mem {α : Type} [BEq α] [LawfulBEq α] {l : List α} {a : α} :
    l.contains a = true ↔ a ∈ l := by
  simp [List.contains, List.elem_iff]

/-! ### C1, C7: relevance scorer -/

/-- Closed form of `calculateRelevanceScore`: weights 100/50/25/20/10, where
the keyword clause counts each search term contained in at least one
(lowercased) dataset keyword. -/
theorem calculateRelevanceScore_closed_form (dataset : SearchDataset) (query : String)
    (searchTerms : List String) :
    calculateRelevanceScore dataset query searchTerms =
      (if jsIncludes (jsToLower dataset.name) (jsToLower query) then 100 else 0) +
      (if jsIncludes (jsToLower dataset.description) (jsToLower query) then 50 else 0) +
      25 * searchTerms.countP (fun term =>
        dataset.keywords.any (fun keyword => jsIncludes (jsToLower keyword) term)) +
      20 * dataset.tags.countP (fun tag => jsIncludes (jsToLower tag) (jsToLower query)) +
      10 * (dataset.relatedFrom.length + dataset.relatedTo.length) := by
  unfold calculateRelevanceScore
  dsimp only
  rw [foldl_if_add, foldl_if_add]
  by_cases h1 : jsIncludes (jsToLower dataset.name) (jsToLower query) = true <;>
    by_cases h2 : jsIncludes (jsToLower dataset.description) (jsToLower query) = true <;>
      simp [h1, h2] <;> ring

/-- C1 (counterexample): the claimed mutual-containment keyword clause disagrees
with the code.  With dataset keyword `"job"` and extracted keyword `"jobs"`, the
claimed score is 25 (the keyword contains the dataset keyword) but
`calculateRelevanceScore` returns 0, because the code only tests
`keyword.toLowerCase().includes(term)`, i.e. one direction. -/
theorem calculateRelevanceScore_mutual_cex :
    specRelevanceScore relevanceCexDataset "zzz" ["jobs"] = 25 ∧
    calculateRelevanceScore relevanceCexDataset "zzz" ["jobs"] = 0 := by
  constructor <;> decide

/-- C1 (amended): the relevance score is exactly 100·[name contains query] +
50·[description contains query] + 25·(extracted keywords contained in some
lowercased dataset keyword) + 20·(tags containing the query) + 10·(relation
count), all containment tests as in the source (the keyword clause is
one-directional: the dataset keyword, lowercased, must contain the term). -/
theorem calculateRelevanceScore_formula (dataset : SearchDataset) (query : String)
    (searchTerms : List String) :
    calculateRelevanceScore dataset query searchTerms =
      (if jsIncludes (jsToLower dataset.name) (jsToLower query) then 100 else 0) +
      (if jsIncludes (jsToLower dataset.description) (jsToLower query) then 50 else 0) +
      25 * searchTerms.countP (fun term =>
        dataset.keywords.any (fun keyword => jsIncludes (jsToLower keyword) term)) +
      20 * dataset.tags.countP (fun tag => jsIncludes (jsToLower tag) (jsToLower query)) +
      10 * (dataset.relatedFrom.length + dataset.relatedTo.length) :=
  calculateRelevanceScore_closed_form dataset query searchTerms

/-- Appending one keyword changes the score by 25 for every search term the new
keyword matches that no existing keyword matched. -/
theorem relevance_add_keyword (dataset : SearchDataset) (query : String)
    (searchTerms : List String) (nk : String) :
    calculateRelevanceScore { dataset with keywords := dataset.keywords ++ [nk] }
        query searchTerms =
      calculateRelevanceScore dataset query searchTerms +
      25 * searchTerms.countP (fun term =>
        jsIncludes (jsToLower nk) term &&
        !(dataset.keywords.any (fun keyword => jsIncludes (jsToLower keyword) term))) := by
  rw [calculateRelevanceScore_closed_form, calculateRelevanceScore_closed_form]
  simp only [List.any_append, List.any_cons, List.any_nil, Bool.or_false]
  rw [countP_or_split (fun term => dataset.keywords.any
    (fun keyword => jsIncludes (jsToLower keyword) term))
    (fun term => jsIncludes (jsToLower nk) term) searchTerms]
  ring

/-- C7 (counterexample): `monotonicityCexDataset` already has the keyword
`"employment"` matching the search term `"employment"`; the added keyword
`"employment data"` also matches that term, yet the score does not change
(the claim demands a strict increase by 25). -/
theorem relevance_monotonicity_cex :
    jsIncludes (jsToLower "employment data") "employment" = true ∧
    calculateRelevanceScore
        { monotonicityCexDataset with
          keywords := monotonicityCexDataset.keywords ++ ["employment data"] }
        "zzz" ["employment"] =
      calculateRelevanceScore monotonicityCexDataset "zzz" ["employment"] := by
  constructor <;> decide

/-- C7 (amended): adding one keyword that matches exactly one search term not
already matched by any existing dataset keyword increases the relevance score
by exactly 25. -/
theorem relevance_new_keyword_adds_25 (dataset : SearchDataset) (query : String)
    (searchTerms : List String) (nk : String)
    (h : searchTerms.countP (fun term =>
        jsIncludes (jsToLower nk) term &&
        !(dataset.keywords.any (fun keyword => jsIncludes (jsToLower keyword) term))) = 1) :
    calculateRelevanceScore { dataset with keywords := dataset.keywords ++ [nk] }
        query searchTerms =
      calculateRelevanceScore dataset query searchTerms + 25 := by
  rw [relevance_add_keyword, h]

/-- C7 (witness): the amended statement at a concrete input — adding
`"employment data"` to a dataset with no keywords, for the search term
`"employment"`, adds exactly 25. -/
theorem relevance_new_keyword_adds_25_witness :
    calculateRelevanceScore
        { monotonicityDataset with
          keywords := monotonicityDataset.keywords ++ ["employment data"] }
        "zzz" ["employment"] =
      calculateRelevanceScore monotonicityDataset "zzz" ["employment"] + 25 :=
  relevance_new_keyword_adds_25 monotonicityDataset "zzz" ["employment"]
    "employment data" (by decide)

/-! ### C2: the search route's NLP step never fails -/

/-- C2 (counterexample): the fallback keywords are `query.split(' ')`, not the
raw text split on whitespace — two consecutive spaces yield an empty-string
token. -/
theorem searchNlpStep_whitespace_cex :
    (searchNlpStep "a  b" false).keywords = ["a", "", "b"] ∧
    (searchNlpStep "a  b" false).keywords ≠ ["a", "b"] := by
  constructor <;> decide

/-- C2 (amended): the search route always obtains a `ProcessedQuery`: on success
it is `processQuery query`, and on any internal NLP error it degrades to the
fallback whose keywords are the raw text split on the space character
(consecutive spaces producing empty tokens), with empty domains and entities,
intent `search`, and confidence 0.5. -/
theorem searchNlpStep_contract (query : String) :
    searchNlpStep query true = processQuery query ∧
    (searchNlpStep query false).originalQuery = query ∧
    (searchNlpStep query false).keywords = jsSplitSpace query ∧
    (searchNlpStep query false).domains = [] ∧
    (searchNlpStep query false).entities = [] ∧
    (searchNlpStep query false).intent = .search ∧
    (searchNlpStep query false).confidence = 0.5 :=
  ⟨rfl, rfl, rfl, rfl, rfl, rfl, rfl⟩

/-! ### C10: missing dataset id -/

/-- C10: when the store has no dataset for the requested id,
`getRelatedRecommendations` returns the empty list for any limit. -/
theorem getRelatedRecommendations_missing_id (store : Store) (datasetId : String)
    (limit : Nat) (h : store.findUnique datasetId = none) :
    getRelatedRecommendations store datasetId limit = [] := by
  unfold getRelatedRecommendations
  rw [h]

/-- C10 (witness): the empty store at a concrete id. -/
theorem getRelatedRecommendations_missing_id_witness :
    getRelatedRecommendations emptyStore "does-not-exist" 5 = [] :=
  getRelatedRecommendations_missing_id emptyStore "does-not-exist" 5 rfl

/-! ### C3: the merge step — dedup, rank, truncate -/

/-- Every element surviving the dedup pass was in the input, with an id not in
`seen`. -/
theorem mem_dedupByIdAux {seen : List String} {l : List Recommendation}
    {r : Recommendation} (h : r ∈ dedupByIdAux seen l) :
    r ∈ l ∧ seen.contains r.dataset.id = false := by
  induction l generalizing seen with
  | nil => simp [dedupByIdAux] at h
  | cons x xs ih =>
    simp only [dedupByIdAux] at h
    by_cases hc : seen.contains x.dataset.id = true
    · rw [if_pos hc] at h
      obtain ⟨hm, hs⟩ := ih h
      exact ⟨List.mem_cons_of_mem _ hm, hs⟩
    · rw [if_neg hc] at h
      rcases List.mem_cons.mp h with rfl | h'
      · refine ⟨List.mem_cons_self _ _, ?_⟩
        simpa using hc
      · obtain ⟨hm, hs⟩ := ih h'
        rw [List.contains_cons] at hs
        exact ⟨List.mem_cons_of_mem _ hm, by simpa using (Bool.or_eq_false_iff.mp hs).2⟩

/-- The dedup pass leaves pairwise distinct dataset ids. -/
theorem nodup_dedupByIdAux (seen : List String) (l : List Recommendation) :
    ((dedupByIdAux seen l).map (fun r => r.dataset.id)).Nodup := by
  induction l generalizing seen with
  | nil => simp [dedupByIdAux]
  | cons x xs ih =>
    simp only [dedupByIdAux]
    by_cases hc : seen.contains x.dataset.id = true
    · rw [if_pos hc]; exact ih _
    · rw [if_neg hc]
      simp only [List.map_cons, List.nodup_cons]
      refine ⟨?_, ih _⟩
      intro hmem
      rcases List.mem_map.mp hmem with ⟨r, hr, hid⟩
      have hs := (mem_dedupByIdAux hr).2
      rw [List.contains_cons] at hs
      have := (Bool.or_eq_false_iff.mp hs).1
      rw [hid] at this
      simp at this

/-- Every survivor of the dedup pass is the first element of the input carrying
its dataset id. -/
theorem findFirst_dedupByIdAux {seen : List String} {l : List Recommendation}
    {r : Recommendation} (h : r ∈ dedupByIdAux seen l) :
    l.find? (fun x => x.dataset.id == r.dataset.id) = some r := by
  induction l generalizing seen with
  | nil => simp [dedupByIdAux] at h
  | cons x xs ih =>
    simp only [dedupByIdAux] at h
    by_cases hc : seen.contains x.dataset.id = true
    · rw [if_pos hc] at h
      have hs := (mem_dedupByIdAux h).2
      have hne : (x.dataset.id == r.dataset.id) = false := by
        refine beq_eq_false_iff_ne.mpr ?_
        intro he
        rw [← he] at hs
        rw [hs] at hc
        exact Bool.false_ne_true hc
      rw [List.find?_cons_of_neg _ (by simp [hne])]
      exact ih h
    · rw [if_neg hc] at h
      rcases List.mem_cons.mp h with rfl | h'
      · exact List.find?_cons_of_pos _ (beq_self_eq_true _)
      · have hs := (mem_dedupByIdAux h').2
        rw [List.contains_cons] at hs
        have hne : (r.dataset.id == x.dataset.id) = false := (Bool.or_eq_false_iff.mp hs).1
        have hne' : (x.dataset.id == r.dataset.id) = false :=
          beq_eq_false_iff_ne.mpr (Ne.symm (beq_eq_false_iff_ne.mp hne))
        rw [List.find?_cons_of_neg _ (by simp [hne'])]
        exact ih h'

/-- The descending score comparison is transitive. -/
theorem recGe_trans (a b c : Recommendation) (hab : recGe a b = true)
    (hbc : recGe b c = true) : recGe a c = true := by
  simp only [recGe, decide_eq_true_eq] at *
  exact le_trans hbc hab

/-- The descending score comparison is total. -/
theorem recGe_total (a b : Recommendation) : (recGe a b || recGe b a) = true := by
  simp only [recGe, Bool.or_eq_true, decide_eq_true_eq]
  exact le_total b.score a.score

/-- C3: the shared merge step (used verbatim by `getRelatedRecommendations` and
`getSearchRecommendations`, and with an extra exclusion filter by
`getComplementaryDatasets`) never repeats a dataset id, is sorted by
non-increasing score, keeps for each id the first occurrence of the merged
strategy outputs, and has length at most the caller-supplied limit. -/
theorem dedupeAndRank_spec (recs : List Recommendation) (limit : Nat) :
    ((dedupeAndRank recs limit).map (fun r => r.dataset.id)).Nodup ∧
    (dedupeAndRank recs limit).Pairwise (fun a b => b.score ≤ a.score) ∧
    (dedupeAndRank recs limit).length ≤ limit ∧
    ∀ r ∈ dedupeAndRank recs limit,
      recs.find? (fun x => x.dataset.id == r.dataset.id) = some r := by
  unfold dedupeAndRank
  have hperm := List.mergeSort_perm (dedupById recs) recGe
  refine ⟨?_, ?_, ?_, ?_⟩
  · have h1 : (((dedupById recs).mergeSort recGe).map (fun r => r.dataset.id)).Nodup :=
      (hperm.map (fun r => r.dataset.id)).nodup_iff.mpr (nodup_dedupByIdAux [] recs)
    rw [List.map_take]
    exact h1.sublist (List.take_sublist _ _)
  · have h2 := List.sorted_mergeSort recGe_trans recGe_total (dedupById recs)
    exact ((h2.sublist (List.take_sublist _ _)).imp
      (fun h => by simpa [recGe, decide_eq_true_eq] using h))
  · exact List.length_take_le _ _
  · intro r hr
    have h1 : r ∈ (dedupById recs).mergeSort recGe :=
      List.Sublist.mem hr (List.take_sublist _ _)
    have h2 : r ∈ dedupByIdAux [] recs := hperm.mem_iff.mp h1
    exact findFirst_dedupByIdAux h2

/-- C3 (witness): the merged list keeps the first occurrence — at a concrete
two-element input, the theorem recovers `recW1` as the first element with its id. -/
theorem dedupeAndRank_spec_witness :
    [recW1, recW2].find? (fun x => x.dataset.id == recW1.dataset.id) = some recW1 := by
  have hsorted : List.Pairwise (fun a b => recGe a b = true) [recW1, recW2] := by
    refine List.pairwise_cons.mpr ⟨?_, List.pairwise_singleton _ _⟩
    intro b hb
    rw [List.mem_singleton.mp hb]
    decide
  have heq : dedupeAndRank [recW1, recW2] 5 = [recW1, recW2] := by
    unfold dedupeAndRank
    have h1 : dedupById [recW1, recW2] = [recW1, recW2] := by decide
    rw [h1, List.mergeSort_of_sorted hsorted]
    rfl
  have hmem : recW1 ∈ dedupeAndRank [recW1, recW2] 5 := by
    rw [heq]
    exact List.mem_cons_self _ _
  exact (dedupeAndRank_spec [recW1, recW2] 5).2.2.2 recW1 hmem

/-! ### C9: complementary strategy -/

/-- Sorting a one-element list is the identity. -/
theorem mergeSort_single (a : Recommendation) : [a].mergeSort recGe = [a] :=
  List.mergeSort_of_sorted (List.pairwise_singleton _ _)

/-- The related pipeline on the C9 fixture: seed `A` has no relations and no
domains, but the agency strategy recommends `B`. -/
theorem relatedRecs_cStore_eval : getRelatedRecommendations cStore "A" 2 = [cRecB] := by
  have h1 : getRelatedRecommendations cStore "A" 2 = dedupeAndRank [cRecB] 2 := rfl
  rw [h1]
  unfold dedupeAndRank
  rw [show dedupById [cRecB] = [cRecB] from rfl, mergeSort_single]
  rfl

/-- The complementary strategy on the C9 fixture returns exactly the agency
recommendation for `B`. -/
theorem complementary_cStore_eval : getComplementaryDatasets cStore ["A"] = [cRecB] := by
  unfold getComplementaryDatasets
  rw [show ["A"].flatMap (fun datasetId => getRelatedRecommendations cStore datasetId 2) = [cRecB] by
    rw [List.flatMap_cons, List.flatMap_nil, relatedRecs_cStore_eval, List.append_nil]]
  dsimp only
  rw [show dedupById [cRecB] = [cRecB] from rfl]
  rw [show [cRecB].filter (fun rec => !(["A"].contains rec.dataset.id)) = [cRecB] from rfl]
  rw [mergeSort_single]
  rfl

/-- C9 (counterexample): the complementary output is not the union of the
direct-relation strategy over the seed ids.  For the fixture store, seed `A`
has no direct relations at all (the union is empty), yet the output contains
the agency recommendation for `B`. -/
theorem getComplementaryDatasets_direct_only_cex :
    (["A"].flatMap (fun i =>
      match cStore.findUnique i with
      | some cur => directRelationRecs cur
      | none => [])) = [] ∧
    getComplementaryDatasets cStore ["A"] = [cRecB] ∧
    getComplementaryDatasets cStore ["A"] ≠ [] := by
  refine ⟨rfl, complementary_cStore_eval, ?_⟩
  rw [complementary_cStore_eval]
  simp

/-- C9 (amended): every complementary recommendation comes from the full related
pipeline (`getRelatedRecommendations`, limit 2) of one of the seed ids, the
seed ids themselves never appear — even when the seeds are related to each
other — and the output has at most 5 elements. -/
theorem getComplementaryDatasets_spec (store : Store) (datasetIds : List String) :
    (∀ r ∈ getComplementaryDatasets store datasetIds,
      r.dataset.id ∉ datasetIds ∧
      ∃ i ∈ datasetIds, r ∈ getRelatedRecommendations store i 2) ∧
    (getComplementaryDatasets store datasetIds).length ≤ 5 := by
  constructor
  · intro r hr
    unfold getComplementaryDatasets at hr
    have h1 := List.Sublist.mem hr (List.take_sublist _ _)
    have h2 := (List.mergeSort_perm _ recGe).mem_iff.mp h1
    obtain ⟨h3, h4⟩ := List.mem_filter.mp h2
    constructor
    · intro hmem
      rw [contains_iff_mem.mpr hmem] at h4
      simp at h4
    · have h5 := (mem_dedupByIdAux (show r ∈ dedupByIdAux [] _ from h3)).1
      exact List.mem_flatMap.mp h5
  · unfold getComplementaryDatasets
    exact List.length_take_le _ _

/-- C9 (witness): at the fixture store with seed list `["A"]`, the returned
recommendation is not a seed and traces back to the related pipeline of `A`. -/
theorem getComplementaryDatasets_spec_witness :
    cRecB.dataset.id ∉ ["A"] ∧ ∃ i ∈ ["A"], cRecB ∈ getRelatedRecommendations cStore i 2 :=
  (getComplementaryDatasets_spec cStore ["A"]).1 cRecB
    (by rw [complementary_cStore_eval]; exact List.mem_cons_self _ _)

/-! ### C8: direct-relation strategy -/

/-- C8 (amended): the direct-relation strategy emits one recommendation per
relation row touching the seed (either direction), each with score 1.0 and
reason `kind ++ ": " ++ description`, the description falling back to
`"Direct relationship"` when it is absent or empty; a seed with exactly one
outgoing `feeds-into` relation and no incoming ones yields exactly one
recommendation whose reason starts with `"feeds-into:"`. -/
theorem directRelationRecs_spec (cur : CurrentDataset) :
    (directRelationRecs cur).length = cur.relatedFrom.length + cur.relatedTo.length ∧
    (∀ r ∈ directRelationRecs cur,
      r.score = 1.0 ∧
      ∃ rel, (rel ∈ cur.relatedFrom ∨ rel ∈ cur.relatedTo) ∧
        r.dataset = rel.dataset ∧
        r.reason = rel.relationType ++ ": " ++ jsOrDefault rel.description "Direct relationship") ∧
    (∀ rel, cur.relatedFrom = [rel] → cur.relatedTo = [] →
      directRelationRecs cur =
        [{ dataset := rel.dataset, score := 1.0,
           reason := rel.relationType ++ ": " ++ jsOrDefault rel.description "Direct relationship",
           type := .related }] ∧
      (rel.relationType = "feeds-into" →
        ∃ rest, (directRelationRecs cur).map (fun r => r.reason) = ["feeds-into:" ++ rest])) := by
  refine ⟨?_, ?_, ?_⟩
  · simp [directRelationRecs]
  · intro r hr
    unfold directRelationRecs at hr
    dsimp only at hr
    obtain ⟨x, hx, rfl⟩ := List.mem_map.mp hr
    rcases List.mem_append.mp hx with hx | hx
    · obtain ⟨rel, hrel, rfl⟩ := List.mem_map.mp hx
      exact ⟨rfl, rel, Or.inl hrel, rfl, rfl⟩
    · obtain ⟨rel, hrel, rfl⟩ := List.mem_map.mp hx
      exact ⟨rfl, rel, Or.inr hrel, rfl, rfl⟩
  · intro rel h1 h2
    have heq : directRelationRecs cur =
        [{ dataset := rel.dataset, score := 1.0,
           reason := rel.relationType ++ ": " ++ jsOrDefault rel.description "Direct relationship",
           type := .related }] := by
      simp [directRelationRecs, h1, h2]
    refine ⟨heq, ?_⟩
    intro hfeeds
    refine ⟨" " ++ jsOrDefault rel.description "Direct relationship", ?_⟩
    rw [heq]
    simp only [List.map_cons, List.map_nil, hfeeds]
    rw [show ("feeds-into" : String) ++ ": " = "feeds-into:" ++ " " from by decide]
    rw [String.append_assoc]

/-- C8 (witness): the fixture seed with exactly one outgoing `feeds-into`
relation produces exactly one recommendation with the expected reason, which
starts with `"feeds-into:"`. -/
theorem directRelationRecs_spec_witness :
    directRelationRecs curW =
      [{ dataset := relW.dataset, score := 1.0,
         reason := relW.relationType ++ ": " ++ jsOrDefault relW.description "Direct relationship",
         type := .related }] ∧
    ∃ rest, (directRelationRecs curW).map (fun r => r.reason) = ["feeds-into:" ++ rest] := by
  have h := (directRelationRecs_spec curW).2.2 relW rfl rfl
  exact ⟨h.1, h.2 rfl⟩

/-- C8 (counterexample): a present but empty description is falsy in
JavaScript, so the code emits the fallback reason, not `kind ++ ": " ++ ""`
as the claim's wording demands for a present description. -/
theorem directRelationRecs_empty_description_cex :
    curE.relatedFrom.map (fun rel => rel.description) = [some ""] ∧
    (directRelationRecs curE).map (fun r => r.reason) = ["feeds-into: Direct relationship"] ∧
    "feeds-into: Direct relationship" ≠ "feeds-into" ++ ": " ++ "" := by
  refine ⟨rfl, by decide, by decide⟩

/-! ### C6: similarity function -/

/-- Filter length over a duplicate-free list is a `Finset` filter cardinality. -/
theorem length_filter_eq_card {l : List String} (hl : l.Nodup) (p : String → Bool) :
    (l.filter p).length = (l.toFinset.filter (fun x => p x = true)).card := by
  rw [← List.toFinset_card_of_nodup (hl.filter p), List.toFinset_filter]

/-- Counting the members of `l1` that `l2` contains is the intersection
cardinality, when `l1` is duplicate-free. -/
theorem length_filter_contains_eq_card_inter {l1 l2 : List String} (h : l1.Nodup) :
    (l1.filter (fun d => l2.contains d)).length = (l1.toFinset ∩ l2.toFinset).card := by
  rw [length_filter_eq_card h, ← Finset.filter_mem_eq_inter]
  congr 1
  apply Finset.filter_congr
  intro x _
  simp [contains_iff_mem]

/-- C6: for datasets whose stored sets are duplicate-free, the similarity is
exactly 0.3·|domain overlap| + 0.2·|keywords of A matched by containment in
either direction by some keyword of B| + 0.25·|tag overlap| + 0.1 for a shared
agency + 0.15 when both are API-accessible. -/
theorem calculateSimilarity_closed_form (d1 d2 : Dataset)
    (hdom : d1.domains.Nodup) (hkw : d1.keywords.Nodup) (htag : d1.tags.Nodup) :
    calculateSimilarity d1 d2 =
      0.3 * ((d1.domains.toFinset ∩ d2.domains.toFinset).card : ℚ) +
      0.2 * ((d1.keywords.toFinset.filter (fun k =>
        ∃ k2 ∈ d2.keywords, jsIncludes k2 k = true ∨ jsIncludes k k2 = true)).card : ℚ) +
      0.25 * ((d1.tags.toFinset ∩ d2.tags.toFinset).card : ℚ) +
      (if d1.agencyId = d2.agencyId then 0.1 else 0) +
      (if d1.accessibility = "api" ∧ d2.accessibility = "api" then 0.15 else 0) := by
  unfold calculateSimilarity
  dsimp only
  rw [length_filter_contains_eq_card_inter hdom, length_filter_contains_eq_card_inter htag]
  rw [length_filter_eq_card hkw
    (fun k => d2.keywords.any fun k2 => jsIncludes k2 k || jsIncludes k k2)]
  rw [show d1.keywords.toFinset.filter
        (fun k => (d2.keywords.any fun k2 => jsIncludes k2 k || jsIncludes k k2) = true) =
      d1.keywords.toFinset.filter (fun k =>
        ∃ k2 ∈ d2.keywords, jsIncludes k2 k = true ∨ jsIncludes k k2 = true) from by
    apply Finset.filter_congr
    intro x _
    simp [List.any_eq_true]]
  by_cases h1 : d1.agencyId = d2.agencyId <;>
    by_cases h2 : d1.accessibility = "api" ∧ d2.accessibility = "api" <;>
      simp [h1, h2] <;> ring

/-- C6 (witness): the closed form at two concrete datasets whose stored sets
are duplicate-free. -/
theorem calculateSimilarity_closed_form_witness :
    calculateSimilarity simA simB =
      0.3 * ((simA.domains.toFinset ∩ simB.domains.toFinset).card : ℚ) +
      0.2 * ((simA.keywords.toFinset.filter (fun k =>
        ∃ k2 ∈ simB.keywords, jsIncludes k2 k = true ∨ jsIncludes k k2 = true)).card : ℚ) +
      0.25 * ((simA.tags.toFinset ∩ simB.tags.toFinset).card : ℚ) +
      (if simA.agencyId = simB.agencyId then 0.1 else 0) +
      (if simA.accessibility = "api" ∧ simB.accessibility = "api" then 0.15 else 0) :=
  calculateSimilarity_closed_form simA simB (by decide) (by decide) (by decide)

/-! ### C4: confidence bounds and keyword non-emptiness -/

/-- A list with an element whose value is not in `seen` dedups to a non-empty
list. -/
theorem jsDedupAux_ne_nil {seen : List String} {l : List String}
    (h : ∃ x ∈ l, seen.contains x = false) : jsDedupAux seen l ≠ [] := by
  induction l generalizing seen with
  | nil => simp at h
  | cons y ys ih =>
    obtain ⟨x, hx, hs⟩ := h
    simp only [jsDedupAux]
    by_cases hc : seen.contains y = true
    · rw [if_pos hc]
      rcases List.mem_cons.mp hx with rfl | hx'
      · rw [hc] at hs; cases hs
      · exact ih ⟨x, hx', hs⟩
    · rw [if_neg hc]
      simp

/-- C4: for every input text, the confidence equals
`min(0.5 + min(0.1·|keywords|, 0.3) + 0.1·|domains| + 0.1·|entities|, 0.9)`,
hence lies in `[0.5, 0.9]`; and the keyword set is non-empty unless every token
of the (normalized) input is a stop word or has length at most 2. -/
theorem processQuery_confidence_spec (query : String) :
    (processQuery query).confidence =
      min (0.5 + min (0.1 * ((processQuery query).keywords.length : ℚ)) 0.3 +
        0.1 * ((processQuery query).domains.length : ℚ) +
        0.1 * ((processQuery query).entities.length : ℚ)) 0.9 ∧
    0.5 ≤ (processQuery query).confidence ∧
    (processQuery query).confidence ≤ 0.9 ∧
    ((¬ ∀ t ∈ queryTokens (normalizeQuery query), t ∈ STOP_WORDS ∨ t.length ≤ 2) →
      (processQuery query).keywords ≠ []) := by
  refine ⟨?_, ?_, ?_, ?_⟩
  · show calculateConfidence _ _ _ = _
    unfold calculateConfidence
    dsimp only
    rw [mul_comm (((extractKeywords (normalizeQuery query)).length : ℚ)) (0.1 : ℚ),
      mul_comm ((detectDomains (normalizeQuery query)
        (extractKeywords (normalizeQuery query))).length : ℚ) (0.1 : ℚ),
      mul_comm ((extractEntities (normalizeQuery query)).length : ℚ) (0.1 : ℚ)]
    rfl
  · show (0.5 : ℚ) ≤ calculateConfidence _ _ _
    unfold calculateConfidence
    dsimp only
    rw [le_min_iff]
    constructor
    · have h1 : (0 : ℚ) ≤ min (((extractKeywords (normalizeQuery query)).length : ℚ) * 0.1) 0.3 := by
        rw [le_min_iff]
        constructor <;> positivity
      have h2 : (0 : ℚ) ≤ ((detectDomains (normalizeQuery query)
          (extractKeywords (normalizeQuery query))).length : ℚ) * 0.1 := by positivity
      have h3 : (0 : ℚ) ≤ ((extractEntities (normalizeQuery query)).length : ℚ) * 0.1 := by
        positivity
      linarith
    · norm_num
  · show calculateConfidence _ _ _ ≤ (0.9 : ℚ)
    unfold calculateConfidence
    dsimp only
    exact min_le_right _ _
  · intro h
    rw [not_forall] at h
    obtain ⟨t, ht⟩ := h
    rw [Classical.not_imp] at ht
    obtain ⟨htm, htp⟩ := ht
    rw [not_or] at htp
    obtain ⟨hstop, hlen⟩ := htp
    show extractKeywords (normalizeQuery query) ≠ []
    unfold extractKeywords
    dsimp only
    apply jsDedupAux_ne_nil
    refine ⟨t, ?_, rfl⟩
    rw [List.mem_filter]
    refine ⟨htm, ?_⟩
    have h1 : (t.length > 2 : Bool) = true := by
      simp only [decide_eq_true_eq]
      omega
    have h2 : STOP_WORDS.contains t = false := by
      rw [← Bool.not_eq_true]
      intro hc
      exact hstop (contains_iff_mem.mp hc)
    rw [h1, h2]
    rfl

/-- C4 (witness): at the query `"employment"`, one token is neither a stop word
nor short, so the keyword set is non-empty. -/
theorem processQuery_confidence_spec_witness :
    (processQuery "employment").keywords ≠ [] :=
  (processQuery_confidence_spec "employment").2.2.2 (by decide)

/-! ### C5: domain detection -/

/-- The domain table has pairwise distinct domain names. -/
theorem names_nodup : (DOMAIN_KEYWORDS.map Prod.fst).Nodup := by decide

/-- In a list of pairs with duplicate-free first components, `find?` by first
component retrieves any member. -/
theorem find?_of_fst_nodup {β : Type} {l : List (String × β)}
    (hn : (l.map Prod.fst).Nodup) {e : String × β} (he : e ∈ l) :
    l.find? (fun x => x.1 == e.1) = some e := by
  induction l with
  | nil => simp at he
  | cons a as ih =>
    rw [List.map_cons, List.nodup_cons] at hn
    rcases List.mem_cons.mp he with rfl | he'
    · exact List.find?_cons_of_pos _ (beq_self_eq_true _)
    · have hne : (a.1 == e.1) = false := by
        refine beq_eq_false_iff_ne.mpr ?_
        intro hEq
        apply hn.1
        rw [hEq]
        exact List.mem_map.mpr ⟨e, he', rfl⟩
      rw [List.find?_cons_of_neg _ (by simp [hne])]
      exact ih hn.2 he'

/-- With duplicate-free first components, the first component determines the pair. -/
theorem fst_inj_of_nodup {β : Type} {l : List (String × β)}
    (hn : (l.map Prod.fst).Nodup) {a b : String × β} (ha : a ∈ l) (hb : b ∈ l)
    (h : a.1 = b.1) : a = b := by
  have h1 := find?_of_fst_nodup hn ha
  have h2 := find?_of_fst_nodup hn hb
  rw [show (fun x : String × β => x.1 == a.1) = (fun x : String × β => x.1 == b.1) from by
    funext x; rw [h]] at h1
  rw [h1] at h2
  exact Option.some.inj h2

/-- Characterization of the positively scored domain list. -/
theorem mem_scoredDomains {query : String} {kws : List String} {p : String × Nat} :
    p ∈ scoredDomains query kws ↔
      ∃ e ∈ DOMAIN_KEYWORDS, 0 < domainScore query kws e ∧
        p = (e.1, domainScore query kws e) := by
  unfold scoredDomains
  rw [List.mem_filterMap]
  constructor
  · rintro ⟨e, he, hf⟩
    dsimp only at hf
    by_cases h : domainScore query kws e > 0
    · rw [if_pos h] at hf
      exact ⟨e, he, h, (Option.some.inj hf).symm⟩
    · rw [if_neg h] at hf
      cases hf
  · rintro ⟨e, he, hpos, rfl⟩
    refine ⟨e, he, ?_⟩
    dsimp only
    rw [if_pos hpos]

/-- The scored list's names form a sublist of the table's names (the filter
preserves encounter order). -/
theorem scoredDomains_fst_sublist (query : String) (kws : List String) :
    ((scoredDomains query kws).map Prod.fst).Sublist (DOMAIN_KEYWORDS.map Prod.fst) := by
  unfold scoredDomains
  generalize DOMAIN_KEYWORDS = l
  induction l with
  | nil => simp
  | cons a as ih =>
    by_cases h : domainScore query kws a > 0
    · have hcons : List.filterMap (fun entry =>
          let score := domainScore query kws entry
          if score > 0 then some (entry.1, score) else none) (a :: as) =
          (a.1, domainScore query kws a) :: List.filterMap (fun entry =>
            let score := domainScore query kws entry
            if score > 0 then some (entry.1, score) else none) as := by
        rw [List.filterMap_cons]
        dsimp only
        rw [if_pos h]
      rw [hcons, List.map_cons, List.map_cons]
      exact List.Sublist.cons₂ _ ih
    · have hcons : List.filterMap (fun entry =>
          let score := domainScore query kws entry
          if score > 0 then some (entry.1, score) else none) (a :: as) =
          List.filterMap (fun entry =>
            let score := domainScore query kws entry
            if score > 0 then some (entry.1, score) else none) as := by
        rw [List.filterMap_cons]
        dsimp only
        rw [if_neg h]
      rw [hcons, List.map_cons]
      exact List.Sublist.cons _ ih

/-- The lookup score of a scored-list member is its recorded score. -/
theorem scoreOf_mem_scored {query : String} {kws : List String} {p : String × Nat}
    (hp : p ∈ scoredDomains query kws) : domainScoreOf query kws p.1 = p.2 := by
  obtain ⟨e, he, _, rfl⟩ := mem_scoredDomains.mp hp
  unfold domainScoreOf
  rw [find?_of_fst_nodup names_nodup he]

/-- The descending domain comparison is transitive. -/
theorem domainGe_trans (a b c : String × Nat) (hab : domainGe a b = true)
    (hbc : domainGe b c = true) : domainGe a c = true := by
  simp only [domainGe, decide_eq_true_eq] at *
  exact le_trans hbc hab

/-- The descending domain comparison is total. -/
theorem domainGe_total (a b : String × Nat) : (domainGe a b || domainGe b a) = true := by
  simp only [domainGe, Bool.or_eq_true, decide_eq_true_eq]
  exact le_total b.2 a.2

/-- Two positions `i < j` of a list give a two-element sublist. -/
theorem pair_sublist_of_lt {α : Type} {l : List α} {i j : Nat} (hij : i < j)
    (hj : j < l.length) :
    [l.get ⟨i, lt_trans hij hj⟩, l.get ⟨j, hj⟩].Sublist l := by
  have hi : i < l.length := lt_trans hij hj
  have h1 : [l.get ⟨i, hi⟩].Sublist (l.take j) := by
    rw [List.singleton_sublist]
    have hlen : i < (l.take j).length := by
      rw [List.length_take]
      omega
    have he : (l.take j).get ⟨i, hlen⟩ = l.get ⟨i, hi⟩ := by
      rw [List.get_eq_getElem, List.get_eq_getElem, List.getElem_take]
    rw [← he]
    exact List.get_mem _ _ _
  have h2 : [l.get ⟨j, hj⟩].Sublist (l.drop j) := by
    rw [List.singleton_sublist]
    have hlen : 0 < (l.drop j).length := by
      rw [List.length_drop]
      omega
    have he : (l.drop j).get ⟨0, hlen⟩ = l.get ⟨j, hj⟩ := by
      rw [List.get_eq_getElem, List.get_eq_getElem, List.getElem_drop]
      simp
    rw [← he]
    exact List.get_mem _ _ _
  have h3 := h1.append h2
  rw [List.take_append_drop] at h3
  exact h3

/-- A duplicate-free list cannot contain two elements in both orders. -/
theorem sublist_pair_both_orders {α : Type} {a b : α} {l : List α}
    (h1 : [a, b].Sublist l) (h2 : [b, a].Sublist l) (hn : l.Nodup) : False := by
  have hab : a ≠ b := by
    have hd := hn.sublist h1
    rw [List.nodup_cons] at hd
    intro hEq
    apply hd.1
    rw [hEq]
    exact List.mem_singleton.mpr rfl
  induction l with
  | nil => simp at h1
  | cons c cs ih =>
    rw [List.nodup_cons] at hn
    cases h1 with
    | cons _ h1' =>
      cases h2 with
      | cons _ h2' => exact ih h1' h2' hn.2
      | cons₂ _ h2' =>
        exact hn.1 (List.Sublist.mem
          (List.mem_cons_of_mem _ (List.mem_singleton.mpr rfl)) h1')
    | cons₂ _ h1' =>
      cases h2 with
      | cons _ h2' =>
        exact hn.1 (List.Sublist.mem
          (List.mem_cons_of_mem _ (List.mem_singleton.mpr rfl)) h2')
      | cons₂ _ h2' => exact hab rfl

/-- C5: domain detection returns exactly the domains with positive score, in
strictly non-increasing score order, ties resolved by the encounter order of
the domain table (the JavaScript sort is stable). -/
theorem detectDomains_spec (query : String) (keywords : List String) :
    (∀ d, d ∈ detectDomains query keywords ↔
      ∃ e ∈ DOMAIN_KEYWORDS, e.1 = d ∧ 0 < domainScore query keywords e) ∧
    (detectDomains query keywords).Pairwise (fun x y =>
      domainScoreOf query keywords y ≤ domainScoreOf query keywords x ∧
      (domainScoreOf query keywords x = domainScoreOf query keywords y →
        domainRank x < domainRank y)) := by
  have hperm := List.mergeSort_perm (scoredDomains query keywords) domainGe
  have hnodupS : ((scoredDomains query keywords).map Prod.fst).Nodup :=
    List.Nodup.sublist (scoredDomains_fst_sublist query keywords) names_nodup
  have hnodupM : (((scoredDomains query keywords).mergeSort domainGe).map Prod.fst).Nodup :=
    ((hperm.map Prod.fst).nodup_iff).mpr hnodupS
  constructor
  · intro d
    unfold detectDomains
    rw [List.mem_map]
    constructor
    · rintro ⟨p, hp, rfl⟩
      obtain ⟨e, he, hpos, rfl⟩ := mem_scoredDomains.mp (hperm.mem_iff.mp hp)
      exact ⟨e, he, rfl, hpos⟩
    · rintro ⟨e, he, rfl, hpos⟩
      exact ⟨(e.1, domainScore query keywords e),
        hperm.mem_iff.mpr (mem_scoredDomains.mpr ⟨e, he, hpos, rfl⟩), rfl⟩
  · unfold detectDomains
    rw [List.pairwise_iff_getElem]
    intro i j hi hj hij
    have hi' : i < ((scoredDomains query keywords).mergeSort domainGe).length := by
      simpa using hi
    have hj' : j < ((scoredDomains query keywords).mergeSort domainGe).length := by
      simpa using hj
    rw [List.getElem_map, List.getElem_map]
    have hpx : ((scoredDomains query keywords).mergeSort domainGe)[i] ∈
        scoredDomains query keywords := hperm.mem_iff.mp (List.getElem_mem _)
    have hpy : ((scoredDomains query keywords).mergeSort domainGe)[j] ∈
        scoredDomains query keywords := hperm.mem_iff.mp (List.getElem_mem _)
    have hsx := scoreOf_mem_scored hpx
    have hsy := scoreOf_mem_scored hpy
    have hsorted := List.sorted_mergeSort domainGe_trans domainGe_total
      (scoredDomains query keywords)
    have hle := (List.pairwise_iff_getElem.mp hsorted) i j hi' hj' hij
    have hle' : (((scoredDomains query keywords).mergeSort domainGe)[j]).2 ≤
        (((scoredDomains query keywords).mergeSort domainGe)[i]).2 := by
      simpa [domainGe, decide_eq_true_eq] using hle
    refine ⟨?_, ?_⟩
    · rw [hsx, hsy]
      exact hle'
    · intro hEqScores
      rw [hsx, hsy] at hEqScores
      by_contra hnot
      push_neg at hnot
      -- distinct names at distinct positions
      have hfst_ne : (((scoredDomains query keywords).mergeSort domainGe)[i]).1 ≠
          (((scoredDomains query keywords).mergeSort domainGe)[j]).1 := by
        intro hEq
        have h1 : (((scoredDomains query keywords).mergeSort domainGe).map Prod.fst)[i] =
            (((scoredDomains query keywords).mergeSort domainGe).map Prod.fst)[j] := by
          rw [List.getElem_map, List.getElem_map]
          exact hEq
        have := (hnodupM.getElem_inj_iff).mp h1
        omega
      -- both names are in the table
      obtain ⟨ex, hex, hposx, hpeqx⟩ := mem_scoredDomains.mp hpx
      obtain ⟨ey, hey, hposy, hpeqy⟩ := mem_scoredDomains.mp hpy
      have hxmem : (((scoredDomains query keywords).mergeSort domainGe)[i]).1 ∈
          DOMAIN_KEYWORDS.map Prod.fst := by
        rw [hpeqx]
        exact List.mem_map.mpr ⟨ex, hex, rfl⟩
      have hymem : (((scoredDomains query keywords).mergeSort domainGe)[j]).1 ∈
          DOMAIN_KEYWORDS.map Prod.fst := by
        rw [hpeqy]
        exact List.mem_map.mpr ⟨ey, hey, rfl⟩
      have hrx := List.indexOf_lt_length.mpr hxmem
      have hry := List.indexOf_lt_length.mpr hymem
      have hgx := List.getElem_indexOf hrx
      have hgy := List.getElem_indexOf hry
      -- the ranks are distinct, so rank y < rank x
      have hrne : domainRank (((scoredDomains query keywords).mergeSort domainGe)[j]).1 ≠
          domainRank (((scoredDomains query keywords).mergeSort domainGe)[i]).1 := by
        unfold domainRank
        intro hEq
        apply hfst_ne
        have h5 := congrArg
          (fun n => (List.map Prod.fst DOMAIN_KEYWORDS)[n]?) hEq
        dsimp only at h5
        rw [List.getElem?_eq_getElem hry, List.getElem?_eq_getElem hrx] at h5
        rw [hgy, hgx] at h5
        exact (Option.some.inj h5).symm
      have hlt : domainRank (((scoredDomains query keywords).mergeSort domainGe)[j]).1 <
          domainRank (((scoredDomains query keywords).mergeSort domainGe)[i]).1 := by
        unfold domainRank at hnot hrne ⊢
        omega
      -- the pair [y, x] is a sublist of the table names
      have hpairnames := pair_sublist_of_lt hlt (by exact hrx)
      rw [List.get_eq_getElem, List.get_eq_getElem] at hpairnames
      unfold domainRank at hpairnames
      rw [hgx, hgy] at hpairnames
      -- lift to a pair of table entries
      obtain ⟨l', hl'sub, hl'eq⟩ := List.sublist_map_iff.mp hpairnames
      rcases l' with _ | ⟨fy, l''⟩
      · simp at hl'eq
      rcases l'' with _ | ⟨fx, l'''⟩
      · simp at hl'eq
      rcases l''' with _ | _
      · rw [List.map_cons, List.map_cons, List.map_nil] at hl'eq
        have hfy1 : (((scoredDomains query keywords).mergeSort domainGe)[j]).1 = fy.1 :=
          (List.cons.inj hl'eq).1
        have hfx1 : (((scoredDomains query keywords).mergeSort domainGe)[i]).1 = fx.1 :=
          (List.cons.inj (List.cons.inj hl'eq).2).1
        have hfymem : fy ∈ DOMAIN_KEYWORDS :=
          List.Sublist.mem (List.mem_cons_self _ _) hl'sub
        have hfxmem : fx ∈ DOMAIN_KEYWORDS :=
          List.Sublist.mem (List.mem_cons_of_mem _ (List.mem_singleton.mpr rfl)) hl'sub
        -- the table entries are those of the scored pairs
        have hfy_ey : fy = ey := by
          apply fst_inj_of_nodup names_nodup hfymem hey
          rw [← hfy1, hpeqy]
        have hfx_ex : fx = ex := by
          apply fst_inj_of_nodup names_nodup hfxmem hex
          rw [← hfx1, hpeqx]
        -- push the pair through the scoring filter
        have hfmap := List.Sublist.filterMap (fun entry =>
          let score := domainScore query keywords entry
          if score > 0 then some (entry.1, score) else none) hl'sub
        have hfy_some : (fun entry =>
            let score := domainScore query keywords entry
            if score > 0 then some (entry.1, score) else none) fy =
            some (((scoredDomains query keywords).mergeSort domainGe)[j]) := by
          dsimp only
          rw [hfy_ey, if_pos hposy, ← hpeqy]
        have hfx_some : (fun entry =>
            let score := domainScore query keywords entry
            if score > 0 then some (entry.1, score) else none) fx =
            some (((scoredDomains query keywords).mergeSort domainGe)[i]) := by
          dsimp only
          rw [hfx_ex, if_pos hposx, ← hpeqx]
        have h1 : List.filterMap (fun entry =>
            let score := domainScore query keywords entry
            if score > 0 then some (entry.1, score) else none) [fy, fx] =
            [((scoredDomains query keywords).mergeSort domainGe)[j],
             ((scoredDomains query keywords).mergeSort domainGe)[i]] := by
          simp only [List.filterMap_cons, List.filterMap_nil, hfy_some, hfx_some]
        rw [h1] at hfmap
        have hpairS : [((scoredDomains query keywords).mergeSort domainGe)[j],
            ((scoredDomains query keywords).mergeSort domainGe)[i]].Sublist
            (scoredDomains query keywords) := by
          unfold scoredDomains
          exact hfmap
        have hpairwise_le : List.Pairwise (fun a b => domainGe a b = true)
            [((scoredDomains query keywords).mergeSort domainGe)[j],
             ((scoredDomains query keywords).mergeSort domainGe)[i]] := by
          refine List.pairwise_cons.mpr ⟨?_, List.pairwise_singleton _ _⟩
          intro b hb
          rw [List.mem_singleton.mp hb]
          simp only [domainGe, decide_eq_true_eq]
          exact le_of_eq hEqScores
        have hsubM_yx := List.sublist_mergeSort domainGe_trans domainGe_total
          hpairwise_le hpairS
        have hsubM_xy : [((scoredDomains query keywords).mergeSort domainGe)[i],
            ((scoredDomains query keywords).mergeSort domainGe)[j]].Sublist
            ((scoredDomains query keywords).mergeSort domainGe) := by
          have h := pair_sublist_of_lt hij hj'
          rw [List.get_eq_getElem, List.get_eq_getElem] at h
          exact h
        have hnodupM' : ((scoredDomains query keywords).mergeSort domainGe).Nodup :=
          List.Nodup.of_map Prod.fst hnodupM
        exact sublist_pair_both_orders hsubM_xy hsubM_yx hnodupM'
      · simp at hl'eq

/-- C5 (witness): at a concrete query and keyword list, membership of a
positively scored domain. -/
theorem detectDomains_spec_witness :
    "labour" ∈ detectDomains "employment trends" ["employment", "trends"] := by
  have h := (detectDomains_spec "employment trends" ["employment", "trends"]).1 "labour"
  exact h.mpr ⟨DOMAIN_KEYWORDS.get ⟨0, by decide⟩, List.get_mem _ _ _, by decide, by decide⟩

end GovData
